import Mathlib

/-!
# Boid steering (`Source/Boids/Private/Boid.cpp`)

A shallow embedding of `ABoid`'s steering code.

Modelling conventions
* `float` scalars are idealised as elements of a linearly ordered field `R`
  (exact arithmetic: no rounding, no overflow, no NaN).  All definitions are
  computable when `R` is (for instance `ℚ`).  A fact that needs exactness (the
  length of a clamped vector) is kept apart as a lemma with that assumption
  spelled out; the clamp property of `Steer` is stated on the structure of the
  computation, which does not depend on it.
* Engine math that the source calls but does not define (`FMath::Sqrt`,
  quaternion helpers) is collected in `Engine`; scene queries
  (`GetOverlappingActors`, `LineTraceSingleByChannel`) are collected in `World`.
* `FVector` helpers (`GetSafeNormal`, `Size`, `GetClampedToSize`, operators)
  follow the engine header `UnrealMathUtility.h` / `Vector.h`.
* Actors are identified by a natural number; pointer equality is equality of
  identifiers.
-/

namespace Boids

/-! ## Vectors -/

/-- The engine vector type `FVector`: three scalar components. -/
@[ext] structure FVector (R : Type) where
  X : R
  Y : R
  Z : R
deriving DecidableEq

/-- The engine quaternion type `FQuat`; only stored and passed around. -/
@[ext] structure FQuat (R : Type) where
  X : R
  Y : R
  Z : R
  W : R
deriving DecidableEq

section VectorOps

variable {R : Type} [LinearOrderedField R]

/-- The constant `FVector::ZeroVector`. -/
def FVector.ZeroVector : FVector R := ⟨0, 0, 0⟩

instance : Zero (FVector R) := ⟨FVector.ZeroVector⟩

/-- Componentwise sum, `FVector::operator+` (and `+=`). -/
instance : Add (FVector R) := ⟨fun a b => ⟨a.X + b.X, a.Y + b.Y, a.Z + b.Z⟩⟩

/-- Componentwise difference, `FVector::operator-` (and `-=`). -/
instance : Sub (FVector R) := ⟨fun a b => ⟨a.X - b.X, a.Y - b.Y, a.Z - b.Z⟩⟩

/-- Scaling `V * Scale`, `FVector::operator*(float)` (and `*=`, `Scale * V`). -/
def FVector.scale (v : FVector R) (s : R) : FVector R := ⟨v.X * s, v.Y * s, v.Z * s⟩

/-- Division `V / Scale`, `FVector::operator/(float)` (and `/=`): multiplies by
the reciprocal `1.f / Scale`. -/
def FVector.divide (v : FVector R) (s : R) : FVector R :=
  let RScale := 1 / s
  ⟨v.X * RScale, v.Y * RScale, v.Z * RScale⟩

/-- The inner product `FVector::DotProduct`. -/
def FVector.DotProduct (a b : FVector R) : R := a.X * b.X + a.Y * b.Y + a.Z * b.Z

/-- The squared length `X*X + Y*Y + Z*Z` (`FVector::SizeSquared`). -/
def FVector.SizeSquared (v : FVector R) : R := v.X * v.X + v.Y * v.Y + v.Z * v.Z

/-- The engine constant `SMALL_NUMBER` (`1.e-8f`). -/
def SMALL_NUMBER : R := 1 / 100000000

/-- The scalar clamp `FMath::Clamp(X, Min, Max)`:
`X < Min ? Min : X < Max ? X : Max`. -/
def Clamp (x lo hi : R) : R := if x < lo then lo else if x < hi then x else hi

end VectorOps

/-! ## Engine and world interfaces -/

/-- Engine functions used by `Boid.cpp` whose bodies are outside the repository. -/
structure Engine (R : Type) where
  /-- The square root `FMath::Sqrt`. -/
  Sqrt : R → R
  /-- The orientation facing along a vector, `FVector::ToOrientationQuat`. -/
  ToOrientationQuat : FVector R → FQuat R
  /-- The forward axis of a rotation, as read by `GetActorForwardVector`. -/
  GetForwardVector : FQuat R → FVector R
  /-- The rotation taking one vector to another, `FQuat::FindBetweenVectors`. -/
  FindBetweenVectors : FVector R → FVector R → FQuat R
  /-- Rotating a vector by a quaternion, `FQuat::RotateVector`. -/
  RotateVector : FQuat R → FVector R → FVector R

section EngineOps

variable {R : Type} [LinearOrderedField R]

/-- The length `FVector::Size() = FMath::Sqrt(X*X + Y*Y + Z*Z)`. -/
def FVector.Size (E : Engine R) (v : FVector R) : R := E.Sqrt v.SizeSquared

/-- The reciprocal square root `FMath::InvSqrt`, idealised as `1 / Sqrt`. -/
def InvSqrt (E : Engine R) (x : R) : R := 1 / E.Sqrt x

/-- Engine function `FVector::GetSafeNormal(Tolerance = SMALL_NUMBER)`: the vector itself when its
squared length is exactly one, zero when the squared length is below the
tolerance, otherwise the vector scaled by the reciprocal square root. -/
def FVector.GetSafeNormal (E : Engine R) (v : FVector R) : FVector R :=
  let SquareSum := v.SizeSquared
  if SquareSum = 1 then v
  else if SquareSum < SMALL_NUMBER then FVector.ZeroVector
  else v.scale (InvSqrt E SquareSum)

/-- Engine function `FVector::GetClampedToSize(Min, Max)`: the direction (zero when the length is
not above `SMALL_NUMBER`) scaled by the clamped length. -/
def FVector.GetClampedToSize (E : Engine R) (v : FVector R) (Min Max : R) : FVector R :=
  let VecSize := v.Size E
  let VecDir := if VecSize > SMALL_NUMBER then v.divide VecSize else FVector.ZeroVector
  let VecSize := Clamp VecSize Min Max
  VecDir.scale VecSize

end EngineOps

/-! ## Data model -/

/-- An entry of an overlap list (`AActor*`) as the steering rules read it. -/
inductive AActor (R : Type) where
  /-- An entry for which `Cast<ABoid>` yields `nullptr`. -/
  | other : AActor R
  /-- A boid: its identity, `GetActorLocation()` and `BoidVelocity`. -/
  | boid (id : Nat) (Location BoidVelocity : FVector R) : AActor R
deriving DecidableEq

/-- The flock settings read through the getters of `AFlockManager`. -/
structure AFlockManager (R : Type) where
  MinSpeed : R
  MaxSpeed : R
  SeparationFOV : R
  AlignmentFOV : R
  CohesionFOV : R
  SeparationStrength : R
  AlignmentStrength : R
  CohesionStrength : R
  AvoidanceStrength : R
  AvoidanceSensors : List (FVector R)
  SensorRadius : R
deriving DecidableEq

/-- The part of `FHitResult` the code reads: `bBlockingHit` and `GetActor()`. -/
structure FHitResult where
  bBlockingHit : Bool
  Actor : Option Nat
deriving DecidableEq

/-- Scene queries made during one call, as functions of the boid's location. -/
structure World (R : Type) where
  /-- Result of `PerceptionSensor->GetOverlappingActors`. -/
  PerceptionOverlaps : FVector R → List (AActor R)
  /-- Result of `BoidCollision->GetOverlappingActors` (actor identities). -/
  CollisionOverlaps : FVector R → List Nat
  /-- Result of `GetWorld()->LineTraceSingleByChannel(Hit, Start, End, ...)`. -/
  LineTraceSingleByChannel : FVector R → FVector R → FHitResult

/-- The state of an `ABoid` that steering reads and writes. -/
structure ABoid (R : Type) where
  /-- Identity of the actor (`this`). -/
  id : Nat
  /-- Actor location (`GetActorLocation` / `SetActorLocation`). -/
  Location : FVector R
  /-- Actor rotation (`SetActorRotation`). -/
  Rotation : FQuat R
  BoidVelocity : FVector R
  /-- The `TArray<FVector> TargetForces`, live elements in order. -/
  TargetForces : List (FVector R)
  /-- The `FlockManager` pointer; `none` is `nullptr`. -/
  FlockManager : Option (AFlockManager R)
  /-- The value of `PerceptionSensor->GetScaledSphereRadius()`. -/
  PerceptionRadius : R
deriving DecidableEq

section Steering

variable {R : Type} [LinearOrderedField R]

/-- The constructor `ABoid::ABoid` as far as steering state goes (lines 35-38):
perception radius `300`, velocity `FVector::ZeroVector`, no flock manager yet. -/
def ABoid.construct (id : Nat) (Location : FVector R) (Rotation : FQuat R) : ABoid R :=
  { id := id, Location := Location, Rotation := Rotation,
    BoidVelocity := FVector.ZeroVector, TargetForces := [], FlockManager := none,
    PerceptionRadius := 300 }

/-- The call `GetActorForwardVector()`: the forward axis of the actor rotation. -/
def ABoid.GetActorForwardVector (E : Engine R) (b : ABoid R) : FVector R :=
  E.GetForwardVector b.Rotation

/-- The field-of-view expression shared by the three rules (lines 107, 162, 203):
`DotProduct(forward, (FlockmateLocation - Location).GetSafeNormal())`. -/
def ABoid.viewDot (E : Engine R) (b : ABoid R) (FlockmateLocation : FVector R) : R :=
  FVector.DotProduct (b.GetActorForwardVector E)
    ((FlockmateLocation - b.Location).GetSafeNormal E)

/-- One iteration of the loop of `ABoid::Separate` (lines 100-130) on the pair
`(Steering, FlockCount)`. -/
def Separate.step (E : Engine R) (b : ABoid R) (fm : AFlockManager R)
    (st : FVector R × Nat) (OverlapActor : AActor R) : FVector R × Nat :=
  match OverlapActor with
  | .other => st
  | .boid id FlockmateLocation _ =>
    if id = b.id then st
    else if b.viewDot E FlockmateLocation ≤ fm.SeparationFOV then st
    else
      let SeparationDirection := b.Location - FlockmateLocation
      let SeparationDirection := SeparationDirection.GetSafeNormal E
      let ProximityFactor := 1 - SeparationDirection.Size E / b.PerceptionRadius
      if ProximityFactor < 0 then st
      else (st.1 + SeparationDirection.scale ProximityFactor, st.2 + 1)

/-- Source function `ABoid::Separate` (lines 89-144).  The statement
`Steering.GetSafeNormal() -= BoidVelocity.GetSafeNormal()` updates a temporary and
leaves `Steering` as it was. -/
def ABoid.Separate (E : Engine R) (b : ABoid R) (Flock : List (AActor R)) : FVector R :=
  match b.FlockManager with
  | none => FVector.ZeroVector
  | some fm =>
    let st := Flock.foldl (Separate.step E b fm) (FVector.ZeroVector, 0)
    let Steering := st.1
    let FlockCount := st.2
    if FlockCount > 0 then
      let Steering := Steering.divide (FlockCount : R)
      let _temporary := Steering.GetSafeNormal E - b.BoidVelocity.GetSafeNormal E
      let Steering := Steering.scale fm.SeparationStrength
      Steering
    else FVector.ZeroVector

/-- One iteration of the loop of `ABoid::Align` (lines 155-170). -/
def Align.step (E : Engine R) (b : ABoid R) (fm : AFlockManager R)
    (st : FVector R × Nat) (OverlapActor : AActor R) : FVector R × Nat :=
  match OverlapActor with
  | .other => st
  | .boid id FlockmateLocation FlockmateVelocity =>
    if id = b.id then st
    else if b.viewDot E FlockmateLocation ≤ fm.AlignmentFOV then st
    else (st.1 + FlockmateVelocity.GetSafeNormal E, st.2 + 1)

/-- Source function `ABoid::Align` (lines 146-184); the `-=` on line 176 acts on a temporary. -/
def ABoid.Align (E : Engine R) (b : ABoid R) (Flock : List (AActor R)) : FVector R :=
  match b.FlockManager with
  | none => FVector.ZeroVector
  | some fm =>
    let st := Flock.foldl (Align.step E b fm) (FVector.ZeroVector, 0)
    let Steering := st.1
    let FlockCount := st.2
    if FlockCount > 0 then
      let Steering := Steering.divide (FlockCount : R)
      let _temporary := Steering.GetSafeNormal E - b.BoidVelocity.GetSafeNormal E
      let Steering := Steering.scale fm.AlignmentStrength
      Steering
    else FVector.ZeroVector

/-- One iteration of the loop of `ABoid::GroupUp` (lines 196-211) on the pair
`(AveragePosition, FlockCount)`. -/
def GroupUp.step (E : Engine R) (b : ABoid R) (fm : AFlockManager R)
    (st : FVector R × Nat) (OverlapActor : AActor R) : FVector R × Nat :=
  match OverlapActor with
  | .other => st
  | .boid id FlockmateLocation _ =>
    if id = b.id then st
    else if b.viewDot E FlockmateLocation ≤ fm.CohesionFOV then st
    else (st.1 + FlockmateLocation, st.2 + 1)

/-- Source function `ABoid::GroupUp` (lines 186-226); the `-=` on line 218 acts on a temporary. -/
def ABoid.GroupUp (E : Engine R) (b : ABoid R) (Flock : List (AActor R)) : FVector R :=
  match b.FlockManager with
  | none => FVector.ZeroVector
  | some fm =>
    let st := Flock.foldl (GroupUp.step E b fm) (FVector.ZeroVector, 0)
    let AveragePosition := st.1
    let FlockCount := st.2
    if FlockCount > 0 then
      let AveragePosition := AveragePosition.divide (FlockCount : R)
      let Steering := AveragePosition - b.Location
      let _temporary := Steering.GetSafeNormal E - b.BoidVelocity.GetSafeNormal E
      let Steering := Steering.scale fm.CohesionStrength
      Steering
    else FVector.ZeroVector

/-- The probe of lines 285 and 337: a line trace from the boid's location along
a sensor direction over `SensorRadius`. -/
def ABoid.traceSensor (W : World R) (b : ABoid R) (fm : AFlockManager R)
    (NewSensorDirection : FVector R) : FHitResult :=
  W.LineTraceSingleByChannel b.Location
    (b.Location + NewSensorDirection.scale fm.SensorRadius)

/-- Source function `ABoid::IsObstacleAhead` (lines 268-320).  `none` stands for an array index
out of range. -/
def ABoid.IsObstacleAhead (E : Engine R) (W : World R) (b : ABoid R) : Option Bool :=
  match b.FlockManager with
  | none => some false
  | some fm =>
    if fm.AvoidanceSensors.length > 0 then
      match fm.AvoidanceSensors[0]? with
      | none => none
      | some Sensor0 =>
        let SensorRotation := E.FindBetweenVectors Sensor0 (b.GetActorForwardVector E)
        let NewSensorDirection := E.RotateVector SensorRotation Sensor0
        let Hit := b.traceSensor W fm NewSensorDirection
        if Hit.bBlockingHit then
          if (W.CollisionOverlaps b.Location).any
              (fun OverlapActor => Hit.Actor == some OverlapActor) then
            some false
          else some Hit.bBlockingHit
        else some Hit.bBlockingHit
    else some false

/-- The loop of `ABoid::AvoidObstacle` (lines 333-354): the steering towards the
first sensor direction whose trace has no blocking hit, zero when there is none. -/
def AvoidObstacle.loop (E : Engine R) (W : World R) (b : ABoid R) (fm : AFlockManager R)
    (SensorRotation : FQuat R) : List (FVector R) → FVector R
  | [] => FVector.ZeroVector
  | AvoidanceSensor :: rest =>
    let NewSensorDirection := E.RotateVector SensorRotation AvoidanceSensor
    let Hit := b.traceSensor W fm NewSensorDirection
    if Hit.bBlockingHit then AvoidObstacle.loop E W b fm SensorRotation rest
    else
      let Steering := NewSensorDirection.GetSafeNormal E - b.BoidVelocity.GetSafeNormal E
      let Steering := Steering.scale fm.AvoidanceStrength
      Steering

/-- Source function `ABoid::AvoidObstacle` (lines 322-355).  `none` stands for the unguarded
`GetAvoidanceSensors()[0]` on an empty array. -/
def ABoid.AvoidObstacle (E : Engine R) (W : World R) (b : ABoid R) : Option (FVector R) :=
  match b.FlockManager with
  | none => some FVector.ZeroVector
  | some fm =>
    match fm.AvoidanceSensors[0]? with
    | none => none
    | some Sensor0 =>
      let SensorRotation := E.FindBetweenVectors Sensor0 (b.GetActorForwardVector E)
      some (AvoidObstacle.loop E W b fm SensorRotation fm.AvoidanceSensors)

end Steering

/-! ## The pending-force array

`TargetForces` is a `TArray<FVector>`.  The loop of lines 257-261 is a range-based
`for` over the array whose body calls `TargetForces.Remove(TargetForce)`.  The
range-based `for` takes `begin()` and `end()` once, before the first iteration, so
it visits the slots `0 .. Num-1` of the storage as counted at loop entry, reading
whatever each slot holds when it is reached.  `TArray::Remove(Item)` removes every
element equal to `Item`, moves the kept elements to the front of the same storage
(no reallocation) and lowers `ArrayNum`; slots from the new `ArrayNum` on keep
their previous contents.  The storage is modelled as a list of slots `buf`
together with the live count `num`. -/

section TArray

variable {α : Type} [DecidableEq α]

/-- Engine function `TArray::Remove(Item)` on storage `buf` with `num` live elements: the live
elements different from `Item` are compacted to the front, later slots are
untouched. -/
def TArray.Remove (buf : List α) (num : Nat) (Item : α) : List α × Nat :=
  let kept := (buf.take num).filter (fun Element => !(Element == Item))
  (kept ++ buf.drop kept.length, kept.length)

end TArray

section Steer

variable {R : Type} [LinearOrderedField R]

/-- The loop of lines 257-261, with `k` slots still to visit, the next slot `i`,
the storage `(buf, num)` and the running `Acceleration`.  `none` stands for a
read outside the storage. -/
def Steer.applyTargetForces : Nat → Nat → List (FVector R) → Nat → FVector R →
    Option (FVector R × List (FVector R) × Nat)
  | 0, _, buf, num, Acceleration => some (Acceleration, buf, num)
  | k + 1, i, buf, num, Acceleration =>
    match buf[i]? with
    | none => none
    | some TargetForce =>
      let Acceleration := Acceleration + TargetForce
      let st := TArray.Remove buf num TargetForce
      Steer.applyTargetForces k (i + 1) st.1 st.2 Acceleration

/-- Lines 237-238 of `ABoid::Steer`: move by `BoidVelocity * DeltaTime` and face
along the velocity. -/
def Steer.move (E : Engine R) (b : ABoid R) (DeltaTime : R) : ABoid R :=
  { b with Location := b.Location + b.BoidVelocity.scale DeltaTime,
           Rotation := E.ToOrientationQuat b.BoidVelocity }

/-- Lines 233 and 242-246 of `ABoid::Steer`: the acceleration after the three
flocking rules, on the boid as moved. -/
def Steer.flockForces (E : Engine R) (W : World R) (b : ABoid R) : FVector R :=
  let Acceleration : FVector R := FVector.ZeroVector
  let Flockmates := W.PerceptionOverlaps b.Location
  let Acceleration := Acceleration + b.Separate E Flockmates
  let Acceleration := Acceleration + b.Align E Flockmates
  let Acceleration := Acceleration + b.GroupUp E Flockmates
  Acceleration

/-- Lines 250-254 of `ABoid::Steer`: add the avoidance force when an obstacle is
ahead. -/
def Steer.avoid (E : Engine R) (W : World R) (b : ABoid R) (Acceleration : FVector R) :
    Option (FVector R) :=
  match b.IsObstacleAhead E W with
  | none => none
  | some true =>
    match b.AvoidObstacle E W with
    | none => none
    | some Force => some (Acceleration + Force)
  | some false => some Acceleration

/-- Lines 233-261 of `ABoid::Steer` on the boid as moved: the final
`Acceleration` and the `TargetForces` left in the array. -/
def Steer.accelerate (E : Engine R) (W : World R) (b : ABoid R) :
    Option (FVector R × List (FVector R)) :=
  match Steer.avoid E W b (Steer.flockForces E W b) with
  | none => none
  | some Acceleration =>
    match Steer.applyTargetForces b.TargetForces.length 0 b.TargetForces
        b.TargetForces.length Acceleration with
    | none => none
    | some (Acceleration, buf, num) => some (Acceleration, buf.take num)

/-- Line 264 of `ABoid::Steer`: the velocity before clamping. -/
def Steer.integrate (b : ABoid R) (Acceleration : FVector R) (DeltaTime : R) : FVector R :=
  b.BoidVelocity + Acceleration.scale DeltaTime

/-- Source function `ABoid::Steer` (lines 228-266).  `none` stands for an array index out of
range. -/
def ABoid.Steer (E : Engine R) (W : World R) (b : ABoid R) (DeltaTime : R) :
    Option (ABoid R) :=
  match b.FlockManager with
  | none => some b
  | some fm =>
    let moved := Steer.move E b DeltaTime
    match Steer.accelerate E W moved with
    | none => none
    | some (Acceleration, Remaining) =>
      let BoidVelocity := Steer.integrate moved Acceleration DeltaTime
      some { moved with
        TargetForces := Remaining
        BoidVelocity := BoidVelocity.GetClampedToSize E fm.MinSpeed fm.MaxSpeed }

/-- Source function `ABoid::AddTargetForce` (lines 357-360): append to `TargetForces`. -/
def ABoid.AddTargetForce (b : ABoid R) (TargetForce : FVector R) : ABoid R :=
  { b with TargetForces := b.TargetForces ++ [TargetForce] }

end Steer

/-! ## Notions used to state the properties -/

section SpecNotions

variable {R : Type} [LinearOrderedField R]

/-- The sum of a list of forces, each entry counted once. -/
def sumForces (forces : List (FVector R)) : FVector R :=
  forces.foldl (fun acc f => acc + f) 0

/-- An entry of a neighbour list is rejected by a rule with field-of-view
threshold `threshold`: it is not a boid, it is the boid itself, or the test
`dot(forward, normalize(neighbourPos - selfPos)) > threshold` fails. -/
def ABoid.rejects (E : Engine R) (b : ABoid R) (threshold : R) : AActor R → Prop
  | .other => True
  | .boid id FlockmateLocation _ =>
    id = b.id ∨ ¬ (b.viewDot E FlockmateLocation > threshold)

/-- The alignment force as the specification words it: the included neighbours'
normalised velocities are averaged, and the force is
`(normalize(average) - normalize(currentVelocity)) * alignmentStrength`. -/
def Align.specified (E : Engine R) (currentVelocity : FVector R) (alignmentStrength : R)
    (includedVelocities : List (FVector R)) : FVector R :=
  let average := (sumForces (includedVelocities.map (FVector.GetSafeNormal E))).divide
    (includedVelocities.length : R)
  (average.GetSafeNormal E - currentVelocity.GetSafeNormal E).scale alignmentStrength

/-- The separation weight as the specification words it:
`1 - distance / perceptionRadius` with the actual distance between the boids. -/
def Separate.specifiedProximity (E : Engine R) (selfPos neighbourPos : FVector R)
    (perceptionRadius : R) : R :=
  1 - (selfPos - neighbourPos).Size E / perceptionRadius

end SpecNotions

/-! ## A concrete engine for evaluating the code on examples -/

/-- Upward search for the integer square root: the first `k` with
`n < (k + 1) * (k + 1)`, within `fuel` steps. -/
def natSqrtFrom : Nat → Nat → Nat → Nat
  | 0, k, _ => k
  | fuel + 1, k, n => if n < (k + 1) * (k + 1) then k else natSqrtFrom fuel (k + 1) n

/-- The integer square root. -/
def natSqrt (n : Nat) : Nat := natSqrtFrom n 0 n

/-- A square root on the rationals that is exact on squares of rationals:
the integer square roots of numerator and denominator. -/
def ratSqrt (q : ℚ) : ℚ := (natSqrt q.num.toNat : ℚ) / (natSqrt q.den : ℚ)

/-- A concrete engine over `ℚ` used to evaluate the code on examples.  Square
roots are exact on squares.  An orientation is represented by the unit vector it faces
along (kept in the vector part of the quaternion; the X axis for the zero vector), and sensor directions are left
unrotated, which is what the engine does when the first sensor already points
along the boid's forward vector, as in all examples below. -/
def exactEngine : Engine ℚ where
  Sqrt := ratSqrt
  ToOrientationQuat := fun v =>
    let s := ratSqrt v.SizeSquared
    if s = 0 then ⟨1, 0, 0, 0⟩ else ⟨v.X / s, v.Y / s, v.Z / s, 0⟩
  GetForwardVector := fun q => ⟨q.X, q.Y, q.Z⟩
  FindBetweenVectors := fun _ _ => ⟨0, 0, 0, 1⟩
  RotateVector := fun _ v => v


/-- Example settings: speeds in `[1, 5]`, every field-of-view threshold `0`, every
strength `1`, three sensors of which the first points forward. -/
def exampleManager : AFlockManager ℚ :=
  { MinSpeed := 1, MaxSpeed := 5,
    SeparationFOV := 0, AlignmentFOV := 0, CohesionFOV := 0,
    SeparationStrength := 1, AlignmentStrength := 1, CohesionStrength := 1,
    AvoidanceStrength := 1,
    AvoidanceSensors := [⟨1, 0, 0⟩, ⟨0, 1, 0⟩, ⟨0, 0, 1⟩], SensorRadius := 10 }

/-- A world with no other actors and no obstacles. -/
def emptyWorld : World ℚ :=
  { PerceptionOverlaps := fun _ => [], CollisionOverlaps := fun _ => [],
    LineTraceSingleByChannel := fun _ _ => ⟨false, none⟩ }

/-- A world with a wall (actor `7`) across the X direction: a trace is blocked
exactly when it advances along X. -/
def wallWorld : World ℚ :=
  { PerceptionOverlaps := fun _ => [], CollisionOverlaps := fun _ => [],
    LineTraceSingleByChannel := fun Start End =>
      if Start.X < End.X then ⟨true, some 7⟩ else ⟨false, none⟩ }

/-- A boid of the example flock at the origin, facing and moving along X at
speed `1`, with no pending forces. -/
def exampleBoid : ABoid ℚ :=
  { id := 0, Location := ⟨0, 0, 0⟩, Rotation := ⟨1, 0, 0, 0⟩, BoidVelocity := ⟨1, 0, 0⟩,
    TargetForces := [], FlockManager := some exampleManager, PerceptionRadius := 300 }

/-- A freshly constructed boid without flock manager, with one pending force. -/
def orphanBoid : ABoid ℚ :=
  (ABoid.construct 3 ⟨0, 0, 0⟩ ⟨1, 0, 0, 0⟩ : ABoid ℚ).AddTargetForce ⟨10, 0, 0⟩

/-! # Theorems -/

/-! ## Basic facts about vectors -/

section VectorLemmas

variable {R : Type} [LinearOrderedField R]

@[simp] theorem FVector.add_X (a b : FVector R) : (a + b).X = a.X + b.X := rfl
@[simp] theorem FVector.add_Y (a b : FVector R) : (a + b).Y = a.Y + b.Y := rfl
@[simp] theorem FVector.add_Z (a b : FVector R) : (a + b).Z = a.Z + b.Z := rfl
@[simp] theorem FVector.sub_X (a b : FVector R) : (a - b).X = a.X - b.X := rfl
@[simp] theorem FVector.sub_Y (a b : FVector R) : (a - b).Y = a.Y - b.Y := rfl
@[simp] theorem FVector.sub_Z (a b : FVector R) : (a - b).Z = a.Z - b.Z := rfl
@[simp] theorem FVector.zero_X : (0 : FVector R).X = 0 := rfl
@[simp] theorem FVector.zero_Y : (0 : FVector R).Y = 0 := rfl
@[simp] theorem FVector.zero_Z : (0 : FVector R).Z = 0 := rfl
@[simp] theorem FVector.ZeroVector_eq : (FVector.ZeroVector : FVector R) = 0 := rfl

theorem FVector.zero_add_vec (a : FVector R) : 0 + a = a := by
  ext <;> simp

theorem FVector.add_zero_vec (a : FVector R) : a + 0 = a := by
  ext <;> simp

/-- In exact arithmetic only: a vector longer than `SMALL_NUMBER` whose length is
computed exactly (`Sqrt q * Sqrt q = q` at its squared length `q`) is clamped to
a vector whose squared length is the square of the clamped length.  With `float`
rounding or overflow of `Size()` this equality need not hold. -/
theorem FVector.GetClampedToSize_sizeSquared (E : Engine R) (v : FVector R) (lo hi : R)
    (hv : E.Sqrt v.SizeSquared * E.Sqrt v.SizeSquared = v.SizeSquared)
    (hs : SMALL_NUMBER < v.Size E) :
    (v.GetClampedToSize E lo hi).SizeSquared
      = Clamp (v.Size E) lo hi * Clamp (v.Size E) lo hi := by
  have hpos : (0 : R) < v.Size E := lt_trans (by unfold SMALL_NUMBER; positivity) hs
  have hne : v.Size E ≠ 0 := ne_of_gt hpos
  have hv2 : v.X * v.X + v.Y * v.Y + v.Z * v.Z = v.Size E * v.Size E := by
    simpa [FVector.Size, FVector.SizeSquared] using hv.symm
  simp only [FVector.GetClampedToSize, gt_iff_lt, hs, if_true, FVector.divide,
    FVector.scale, FVector.SizeSquared]
  generalize Clamp (v.Size E) lo hi = c
  field_simp
  linear_combination (c * c) * hv2

end VectorLemmas

/-! ## The concrete square root is exact on squares -/

theorem natSqrtFrom_sq (m : Nat) : ∀ fuel k, k ≤ m → m - k ≤ fuel →
    natSqrtFrom fuel k (m * m) = m := by
  intro fuel
  induction fuel with
  | zero =>
    intro k hk hf
    simp only [natSqrtFrom]
    omega
  | succ f ih =>
    intro k hk hf
    simp only [natSqrtFrom]
    split_ifs with h
    · have : m < k + 1 := Nat.mul_self_lt_mul_self_iff.mp h
      omega
    · have hkm : k + 1 ≤ m := by
        by_contra hc
        have hlt : m < k + 1 := by omega
        exact h (Nat.mul_self_lt_mul_self hlt)
      exact ih (k + 1) hkm (by omega)

theorem natSqrt_sq (m : Nat) : natSqrt (m * m) = m := by
  unfold natSqrt
  apply natSqrtFrom_sq m (m * m) 0 (Nat.zero_le _)
  simpa using Nat.le_mul_self m

theorem ratSqrt_mul_self (q : ℚ) (hq : 0 ≤ q) : ratSqrt (q * q) = q := by
  unfold ratSqrt
  rw [Rat.mul_self_num, Rat.mul_self_den, natSqrt_sq]
  have hn : 0 ≤ q.num := Rat.num_nonneg.mpr hq
  obtain ⟨n, hn2⟩ := Int.eq_ofNat_of_zero_le hn
  have h1 : (q.num * q.num).toNat = n * n := by
    rw [hn2, ← Int.ofNat_mul, Int.toNat_ofNat]
  rw [h1, natSqrt_sq]
  have h2 : ((n : ℕ) : ℚ) = (q.num : ℚ) := by
    rw [hn2]
    rfl
  rw [h2]
  exact Rat.num_div_den q

/-! ## Array reads stay inside the storage -/

section Totality

variable {R : Type} [LinearOrderedField R]

theorem TArray.Remove_fst_length {α : Type} [DecidableEq α] (buf : List α) (num : Nat)
    (Item : α) (h : num ≤ buf.length) :
    (TArray.Remove buf num Item).1.length = buf.length := by
  have hk : ((buf.take num).filter (fun Element => !(Element == Item))).length ≤ num :=
    le_trans (List.length_filter_le _ _) (by simp)
  simp only [TArray.Remove, List.length_append, List.length_drop]
  omega

theorem TArray.Remove_snd_le {α : Type} [DecidableEq α] (buf : List α) (num : Nat)
    (Item : α) (h : num ≤ buf.length) :
    (TArray.Remove buf num Item).2 ≤ buf.length := by
  have hk : ((buf.take num).filter (fun Element => !(Element == Item))).length ≤ num :=
    le_trans (List.length_filter_le _ _) (by simp)
  simp only [TArray.Remove]
  omega

/-- The loop over `TargetForces` never reads outside the storage. -/
theorem Steer.applyTargetForces_isSome : ∀ (k i : Nat) (buf : List (FVector R)) (num : Nat)
    (acc : FVector R), i + k ≤ buf.length → num ≤ buf.length →
    ∃ r, Steer.applyTargetForces k i buf num acc = some r := by
  intro k
  induction k with
  | zero =>
    intro i buf num acc _ _
    exact ⟨_, rfl⟩
  | succ k ih =>
    intro i buf num acc hi hn
    have hlt : i < buf.length := by omega
    simp only [Steer.applyTargetForces, List.getElem?_eq_getElem hlt]
    apply ih
    · rw [TArray.Remove_fst_length buf num _ hn]
      omega
    · rw [TArray.Remove_fst_length buf num _ hn]
      exact TArray.Remove_snd_le buf num _ hn

/-- The check `IsObstacleAhead` never indexes outside the sensor array. -/
theorem ABoid.IsObstacleAhead_isSome (E : Engine R) (W : World R) (b : ABoid R) :
    ∃ r, b.IsObstacleAhead E W = some r := by
  unfold ABoid.IsObstacleAhead
  cases b.FlockManager with
  | none => exact ⟨_, rfl⟩
  | some fm =>
    cases hs : fm.AvoidanceSensors with
    | nil => exact ⟨false, by simp [hs]⟩
    | cons s rest =>
      simp only [hs, List.length_cons, List.getElem?_cons_zero]
      split_ifs <;> exact ⟨_, rfl⟩

/-- The check `IsObstacleAhead` answers `true` only with a flock manager whose sensor
array is not empty. -/
theorem ABoid.IsObstacleAhead_true (E : Engine R) (W : World R) (b : ABoid R)
    (h : b.IsObstacleAhead E W = some true) :
    ∃ fm, b.FlockManager = some fm ∧ fm.AvoidanceSensors ≠ [] := by
  unfold ABoid.IsObstacleAhead at h
  cases hfm : b.FlockManager with
  | none => simp [hfm] at h
  | some fm =>
    refine ⟨fm, rfl, ?_⟩
    intro hs
    simp [hfm, hs] at h

/-- With a non-empty sensor array `AvoidObstacle` returns a force. -/
theorem ABoid.AvoidObstacle_isSome (E : Engine R) (W : World R) (b : ABoid R)
    (fm : AFlockManager R) (hfm : b.FlockManager = some fm) (hs : fm.AvoidanceSensors ≠ []) :
    ∃ f, b.AvoidObstacle E W = some f := by
  unfold ABoid.AvoidObstacle
  rw [hfm]
  cases hl : fm.AvoidanceSensors with
  | nil => exact absurd hl hs
  | cons s rest =>
    simp only [hl, List.getElem?_cons_zero]
    exact ⟨_, rfl⟩

theorem Steer.avoid_isSome (E : Engine R) (W : World R) (b : ABoid R) (acc : FVector R) :
    ∃ a, Steer.avoid E W b acc = some a := by
  unfold Steer.avoid
  obtain ⟨r, hr⟩ := b.IsObstacleAhead_isSome E W
  cases r with
  | false => exact ⟨acc, by rw [hr]⟩
  | true =>
    obtain ⟨fm, hfm, hs⟩ := b.IsObstacleAhead_true E W hr
    obtain ⟨f, hf⟩ := b.AvoidObstacle_isSome E W fm hfm hs
    exact ⟨acc + f, by rw [hr, hf]⟩

theorem Steer.accelerate_isSome (E : Engine R) (W : World R) (b : ABoid R) :
    ∃ r, Steer.accelerate E W b = some r := by
  unfold Steer.accelerate
  obtain ⟨a, ha⟩ := Steer.avoid_isSome E W b (Steer.flockForces E W b)
  obtain ⟨r, hr⟩ := Steer.applyTargetForces_isSome b.TargetForces.length 0 b.TargetForces
    b.TargetForces.length a (by omega) (le_refl _)
  obtain ⟨a2, buf, num⟩ := r
  exact ⟨(a2, buf.take num), by rw [ha]; simp only [hr]⟩

/-- With a flock manager, `Steer` stores the moved boid with the clamped
velocity and the forces left in the array. -/
theorem ABoid.Steer_eq (E : Engine R) (W : World R) (b : ABoid R) (fm : AFlockManager R)
    (DeltaTime : R) (hfm : b.FlockManager = some fm) (acc : FVector R)
    (rest : List (FVector R))
    (h : Steer.accelerate E W (Steer.move E b DeltaTime) = some (acc, rest)) :
    b.Steer E W DeltaTime = some { Steer.move E b DeltaTime with
      TargetForces := rest
      BoidVelocity := (Steer.integrate (Steer.move E b DeltaTime) acc DeltaTime).GetClampedToSize
        E fm.MinSpeed fm.MaxSpeed } := by
  unfold ABoid.Steer
  rw [hfm]
  simp only [h]

end Totality
/-! ## C1: the speed clamp -/

/-- C2, the code at the failing input: three distinct forces are added with
`AddTargetForce`; after one `Steer` the force `(2, 0, 0)` is still in
`TargetForces`, and a second `Steer` without re-adding forces applies it. -/
theorem steer_leaves_pending_force :
    (((exampleBoid.AddTargetForce ⟨1, 0, 0⟩).AddTargetForce ⟨2, 0, 0⟩).AddTargetForce
        ⟨3, 0, 0⟩).TargetForces = [⟨1, 0, 0⟩, ⟨2, 0, 0⟩, ⟨3, 0, 0⟩] ∧
    ((((exampleBoid.AddTargetForce ⟨1, 0, 0⟩).AddTargetForce ⟨2, 0, 0⟩).AddTargetForce
        ⟨3, 0, 0⟩).Steer exactEngine emptyWorld 1).map (fun b' => b'.TargetForces)
      = some [⟨2, 0, 0⟩] ∧
    ((((exampleBoid.AddTargetForce ⟨1, 0, 0⟩).AddTargetForce ⟨2, 0, 0⟩).AddTargetForce
        ⟨3, 0, 0⟩).Steer exactEngine emptyWorld 1).bind
        (fun b' => Steer.accelerate exactEngine emptyWorld (Steer.move exactEngine b' 1))
      = some (⟨2, 0, 0⟩, []) := by
  with_unfolding_all decide

/-- C3, the code at the failing input: with pending forces
`P = [(1,0,0), (2,0,0), (0,0,0)]`, no neighbours and no obstacle, the
acceleration `Steer` integrates is `(1, 0, 0)` while the sum of all entries is
`(3, 0, 0)`; compared with the run without pending forces the positions agree
but the velocities before clamping differ by `(1, 0, 0)`, not by
`(sum P - sum Q) * DeltaTime = (3, 0, 0)`. -/
theorem steer_acceleration_misses_pending_force :
    Steer.accelerate exactEngine emptyWorld
        (Steer.move exactEngine
          { exampleBoid with TargetForces := [⟨1, 0, 0⟩, ⟨2, 0, 0⟩, ⟨0, 0, 0⟩] } 1)
      = some (⟨1, 0, 0⟩, [⟨2, 0, 0⟩]) ∧
    Steer.accelerate exactEngine emptyWorld (Steer.move exactEngine exampleBoid 1)
      = some (⟨0, 0, 0⟩, []) ∧
    sumForces [(⟨1, 0, 0⟩ : FVector ℚ), ⟨2, 0, 0⟩, ⟨0, 0, 0⟩] = ⟨3, 0, 0⟩ ∧
    Steer.integrate (Steer.move exactEngine
          { exampleBoid with TargetForces := [⟨1, 0, 0⟩, ⟨2, 0, 0⟩, ⟨0, 0, 0⟩] } 1) ⟨1, 0, 0⟩ 1
        - Steer.integrate (Steer.move exactEngine exampleBoid 1) ⟨0, 0, 0⟩ 1
      = (⟨1, 0, 0⟩ : FVector ℚ) ∧
    (Steer.move exactEngine
          { exampleBoid with TargetForces := [⟨1, 0, 0⟩, ⟨2, 0, 0⟩, ⟨0, 0, 0⟩] } 1).Location
      = (Steer.move exactEngine exampleBoid 1).Location := by
  with_unfolding_all decide

/-! ## C4: rules on empty or fully rejected neighbour lists -/

section Rules

variable {R : Type} [LinearOrderedField R]

theorem foldl_eq_of_fixed {σ α : Type} (f : σ → α → σ) (l : List α) (s : σ)
    (h : ∀ a ∈ l, f s a = s) : l.foldl f s = s := by
  induction l with
  | nil => rfl
  | cons a rest ih =>
    simp only [List.foldl_cons]
    rw [h a (List.mem_cons_self a rest)]
    exact ih (fun x hx => h x (List.mem_cons_of_mem a hx))

theorem separate_step_rejected (E : Engine R) (b : ABoid R) (fm : AFlockManager R)
    (st : FVector R × Nat) (a : AActor R) (h : b.rejects E fm.SeparationFOV a) :
    Separate.step E b fm st a = st := by
  cases a with
  | other => rfl
  | boid id loc vel =>
    simp only [ABoid.rejects, gt_iff_lt, not_lt] at h
    simp only [Separate.step]
    rcases h with h | h
    · rw [if_pos h]
    · split_ifs <;> rfl

theorem align_step_rejected (E : Engine R) (b : ABoid R) (fm : AFlockManager R)
    (st : FVector R × Nat) (a : AActor R) (h : b.rejects E fm.AlignmentFOV a) :
    Align.step E b fm st a = st := by
  cases a with
  | other => rfl
  | boid id loc vel =>
    simp only [ABoid.rejects, gt_iff_lt, not_lt] at h
    simp only [Align.step]
    rcases h with h | h
    · rw [if_pos h]
    · split_ifs <;> rfl

theorem groupUp_step_rejected (E : Engine R) (b : ABoid R) (fm : AFlockManager R)
    (st : FVector R × Nat) (a : AActor R) (h : b.rejects E fm.CohesionFOV a) :
    GroupUp.step E b fm st a = st := by
  cases a with
  | other => rfl
  | boid id loc vel =>
    simp only [ABoid.rejects, gt_iff_lt, not_lt] at h
    simp only [GroupUp.step]
    rcases h with h | h
    · rw [if_pos h]
    · split_ifs <;> rfl

/-- C4: each of `Separate`, `Align`, `GroupUp` returns exactly the zero vector
when every entry of the neighbour list is rejected by that rule (not a boid, the
boid itself, or failing the rule's field-of-view test), in particular on the
empty list, whatever the strengths, the velocity and the flock manager. -/
theorem flocking_rules_zero_when_all_rejected (E : Engine R) (b : ABoid R)
    (Flock : List (AActor R)) :
    ((∀ fm, b.FlockManager = some fm → ∀ a ∈ Flock, b.rejects E fm.SeparationFOV a) →
      b.Separate E Flock = FVector.ZeroVector) ∧
    ((∀ fm, b.FlockManager = some fm → ∀ a ∈ Flock, b.rejects E fm.AlignmentFOV a) →
      b.Align E Flock = FVector.ZeroVector) ∧
    ((∀ fm, b.FlockManager = some fm → ∀ a ∈ Flock, b.rejects E fm.CohesionFOV a) →
      b.GroupUp E Flock = FVector.ZeroVector) ∧
    (b.Separate E [] = FVector.ZeroVector ∧ b.Align E [] = FVector.ZeroVector ∧
      b.GroupUp E [] = FVector.ZeroVector) := by
  refine ⟨?_, ?_, ?_, ?_, ?_, ?_⟩
  · intro h
    unfold ABoid.Separate
    cases hfm : b.FlockManager with
    | none => rfl
    | some fm =>
      simp only []
      rw [foldl_eq_of_fixed _ _ _ (fun a ha => separate_step_rejected E b fm _ a (h fm hfm a ha))]
      simp
  · intro h
    unfold ABoid.Align
    cases hfm : b.FlockManager with
    | none => rfl
    | some fm =>
      simp only []
      rw [foldl_eq_of_fixed _ _ _ (fun a ha => align_step_rejected E b fm _ a (h fm hfm a ha))]
      simp
  · intro h
    unfold ABoid.GroupUp
    cases hfm : b.FlockManager with
    | none => rfl
    | some fm =>
      simp only []
      rw [foldl_eq_of_fixed _ _ _ (fun a ha => groupUp_step_rejected E b fm _ a (h fm hfm a ha))]
      simp
  · unfold ABoid.Separate
    cases b.FlockManager <;> simp
  · unfold ABoid.Align
    cases b.FlockManager <;> simp
  · unfold ABoid.GroupUp
    cases b.FlockManager <;> simp

end Rules

/-- C4, witness: the example boid with a neighbour list holding a non-boid, the
boid itself and a boid straight behind it (view dot `-1`, threshold `0`); all
three rules return zero. -/
theorem flocking_rules_zero_witness :
    exampleBoid.Separate exactEngine
        [.other, .boid 0 ⟨0, 0, 0⟩ ⟨1, 0, 0⟩, .boid 1 ⟨-2, 0, 0⟩ ⟨0, 3, 0⟩] = FVector.ZeroVector ∧
    exampleBoid.Align exactEngine
        [.other, .boid 0 ⟨0, 0, 0⟩ ⟨1, 0, 0⟩, .boid 1 ⟨-2, 0, 0⟩ ⟨0, 3, 0⟩] = FVector.ZeroVector ∧
    exampleBoid.GroupUp exactEngine
        [.other, .boid 0 ⟨0, 0, 0⟩ ⟨1, 0, 0⟩, .boid 1 ⟨-2, 0, 0⟩ ⟨0, 3, 0⟩] = FVector.ZeroVector := by
  have h := flocking_rules_zero_when_all_rejected exactEngine exampleBoid
    [.other, .boid 0 ⟨0, 0, 0⟩ ⟨1, 0, 0⟩, .boid 1 ⟨-2, 0, 0⟩ ⟨0, 3, 0⟩]
  have hrej : ∀ thr : ℚ, thr = 0 → ∀ a ∈ ([.other, .boid 0 ⟨0, 0, 0⟩ ⟨1, 0, 0⟩,
      .boid 1 ⟨-2, 0, 0⟩ ⟨0, 3, 0⟩] : List (AActor ℚ)), exampleBoid.rejects exactEngine thr a := by
    intro thr hthr a ha
    subst hthr
    simp only [List.mem_cons, List.mem_singleton, List.not_mem_nil, or_false] at ha
    rcases ha with rfl | rfl | rfl
    · trivial
    · exact Or.inl rfl
    · refine Or.inr ?_
      with_unfolding_all decide
  refine ⟨h.1 ?_, h.2.1 ?_, h.2.2.1 ?_⟩
  · intro fm hfm
    obtain rfl : exampleManager = fm := Option.some.inj hfm
    exact hrej _ rfl
  · intro fm hfm
    obtain rfl : exampleManager = fm := Option.some.inj hfm
    exact hrej _ rfl
  · intro fm hfm
    obtain rfl : exampleManager = fm := Option.some.inj hfm
    exact hrej _ rfl

/-! ## C5: avoidance probe priority -/

section Avoidance

variable {R : Type} [LinearOrderedField R]

theorem AvoidObstacle.loop_first_clear (E : Engine R) (W : World R) (b : ABoid R)
    (fm : AFlockManager R) (rot : FQuat R) :
    ∀ (sensors : List (FVector R)) (i : Nat) (s : FVector R), sensors[i]? = some s →
      (∀ (j : Nat) (t : FVector R), j < i → sensors[j]? = some t →
        (b.traceSensor W fm (E.RotateVector rot t)).bBlockingHit = true) →
      (b.traceSensor W fm (E.RotateVector rot s)).bBlockingHit = false →
      AvoidObstacle.loop E W b fm rot sensors
        = ((E.RotateVector rot s).GetSafeNormal E - b.BoidVelocity.GetSafeNormal E).scale
            fm.AvoidanceStrength := by
  intro sensors
  induction sensors with
  | nil => intro i s hs; simp at hs
  | cons a rest ih =>
    intro i s hs hblocked hclear
    cases i with
    | zero =>
      simp only [List.getElem?_cons_zero, Option.some.injEq] at hs
      subst hs
      simp [AvoidObstacle.loop, hclear]
    | succ i =>
      simp only [List.getElem?_cons_succ] at hs
      have ha := hblocked 0 a (Nat.succ_pos i) (by simp)
      simp only [AvoidObstacle.loop, ha, if_true]
      exact ih i s hs (fun j t hj ht => hblocked (j + 1) t (by omega) (by simpa using ht)) hclear

theorem AvoidObstacle.loop_all_blocked (E : Engine R) (W : World R) (b : ABoid R)
    (fm : AFlockManager R) (rot : FQuat R) :
    ∀ (sensors : List (FVector R)),
      (∀ s ∈ sensors, (b.traceSensor W fm (E.RotateVector rot s)).bBlockingHit = true) →
      AvoidObstacle.loop E W b fm rot sensors = FVector.ZeroVector := by
  intro sensors
  induction sensors with
  | nil => intro _; rfl
  | cons a rest ih =>
    intro h
    simp only [AvoidObstacle.loop, h a (List.mem_cons_self a rest), if_true]
    exact ih (fun s hs => h s (List.mem_cons_of_mem a hs))

/-- C5: with a flock manager whose sensor list is `Sensor0 :: rest` (non-empty),
`AvoidObstacle` returns
`(normalize(rotated sensor i) - normalize(BoidVelocity)) * AvoidanceStrength`
for the smallest index `i` whose probe reports no blocking hit, and the zero
vector when every probe is blocked; with sensors `[S0, S1, S2]`, `S0` blocked and
`S1` clear, the force is the one derived from `S1`.  The rotation applied to
every sensor is the one taking the first sensor to the boid's forward vector. -/
theorem avoidObstacle_first_clear_sensor (E : Engine R) (W : World R) (b : ABoid R)
    (fm : AFlockManager R) (Sensor0 : FVector R) (rest : List (FVector R))
    (hfm : b.FlockManager = some fm) (hs : fm.AvoidanceSensors = Sensor0 :: rest) :
    (∀ (i : Nat) (s : FVector R), fm.AvoidanceSensors[i]? = some s →
      (∀ (j : Nat) (t : FVector R), j < i → fm.AvoidanceSensors[j]? = some t →
        (b.traceSensor W fm (E.RotateVector
          (E.FindBetweenVectors Sensor0 (b.GetActorForwardVector E)) t)).bBlockingHit = true) →
      (b.traceSensor W fm (E.RotateVector
          (E.FindBetweenVectors Sensor0 (b.GetActorForwardVector E)) s)).bBlockingHit = false →
      b.AvoidObstacle E W = some
        (((E.RotateVector (E.FindBetweenVectors Sensor0 (b.GetActorForwardVector E))
            s).GetSafeNormal E - b.BoidVelocity.GetSafeNormal E).scale fm.AvoidanceStrength)) ∧
    ((∀ s ∈ fm.AvoidanceSensors, (b.traceSensor W fm (E.RotateVector
          (E.FindBetweenVectors Sensor0 (b.GetActorForwardVector E)) s)).bBlockingHit = true) →
      b.AvoidObstacle E W = some FVector.ZeroVector) ∧
    (∀ S1 S2, rest = [S1, S2] →
      (b.traceSensor W fm (E.RotateVector
          (E.FindBetweenVectors Sensor0 (b.GetActorForwardVector E)) Sensor0)).bBlockingHit
        = true →
      (b.traceSensor W fm (E.RotateVector
          (E.FindBetweenVectors Sensor0 (b.GetActorForwardVector E)) S1)).bBlockingHit
        = false →
      b.AvoidObstacle E W = some
        (((E.RotateVector (E.FindBetweenVectors Sensor0 (b.GetActorForwardVector E))
            S1).GetSafeNormal E - b.BoidVelocity.GetSafeNormal E).scale fm.AvoidanceStrength)) := by
  have hav : b.AvoidObstacle E W = some (AvoidObstacle.loop E W b fm
      (E.FindBetweenVectors Sensor0 (b.GetActorForwardVector E)) fm.AvoidanceSensors) := by
    unfold ABoid.AvoidObstacle
    rw [hfm]
    simp only [hs, List.getElem?_cons_zero]
  refine ⟨?_, ?_, ?_⟩
  · intro i s hi hblocked hclear
    rw [hav, AvoidObstacle.loop_first_clear E W b fm _ fm.AvoidanceSensors i s hi hblocked hclear]
  · intro h
    rw [hav, AvoidObstacle.loop_all_blocked E W b fm _ fm.AvoidanceSensors h]
  · intro S1 S2 hrest h0 h1
    rw [hav, AvoidObstacle.loop_first_clear E W b fm _ fm.AvoidanceSensors 1 S1
      (by simp [hs, hrest]) ?_ h1]
    intro j t hj ht
    have hj0 : j = 0 := by omega
    subst hj0
    simp only [hs, List.getElem?_cons_zero, Option.some.injEq] at ht
    subst ht
    exact h0

end Avoidance

/-- C5, witness: the example boid in the wall world with sensors
`[(1,0,0), (0,1,0), (0,0,1)]`: the forward sensor is blocked, the second is the
first clear one, and the force is `normalize(0,1,0) - normalize(1,0,0)`. -/
theorem avoidObstacle_first_clear_sensor_witness :
    exampleBoid.AvoidObstacle exactEngine wallWorld = some ⟨-1, 1, 0⟩ := by
  have h := (avoidObstacle_first_clear_sensor exactEngine wallWorld exampleBoid exampleManager
    ⟨1, 0, 0⟩ [⟨0, 1, 0⟩, ⟨0, 0, 1⟩] rfl rfl).2.2 ⟨0, 1, 0⟩ ⟨0, 0, 1⟩ rfl
    (by with_unfolding_all decide) (by with_unfolding_all decide)
  rw [h]
  with_unfolding_all decide

/-! ## C8: no flock manager -/

/-- C8: for a boid whose `FlockManager` is null, `Steer` returns normally and
leaves the whole state (location, rotation, velocity, `TargetForces`)
unchanged for every `DeltaTime`; `Separate`, `Align`, `GroupUp` return the zero
vector, `AvoidObstacle` returns the zero vector and `IsObstacleAhead` returns
false. -/
theorem null_flock_manager_is_noop {R : Type} [LinearOrderedField R] (E : Engine R)
    (W : World R) (b : ABoid R) (DeltaTime : R) (Flock : List (AActor R))
    (hfm : b.FlockManager = none) :
    b.Steer E W DeltaTime = some b ∧
    b.Separate E Flock = FVector.ZeroVector ∧
    b.Align E Flock = FVector.ZeroVector ∧
    b.GroupUp E Flock = FVector.ZeroVector ∧
    b.AvoidObstacle E W = some FVector.ZeroVector ∧
    b.IsObstacleAhead E W = some false := by
  unfold ABoid.Steer ABoid.Separate ABoid.Align ABoid.GroupUp ABoid.AvoidObstacle
    ABoid.IsObstacleAhead
  simp only [hfm, and_self]

/-- C8, witness: a constructed boid without flock manager holding one pending
force, in the wall world, with a boid ahead in its neighbour list. -/
theorem null_flock_manager_is_noop_witness :
    orphanBoid.FlockManager = none ∧
    orphanBoid.TargetForces = [⟨10, 0, 0⟩] ∧
    orphanBoid.Steer exactEngine wallWorld 1 = some orphanBoid ∧
    orphanBoid.Separate exactEngine [.boid 1 ⟨2, 0, 0⟩ ⟨1, 0, 0⟩] = FVector.ZeroVector ∧
    orphanBoid.Align exactEngine [.boid 1 ⟨2, 0, 0⟩ ⟨1, 0, 0⟩] = FVector.ZeroVector ∧
    orphanBoid.GroupUp exactEngine [.boid 1 ⟨2, 0, 0⟩ ⟨1, 0, 0⟩] = FVector.ZeroVector ∧
    orphanBoid.AvoidObstacle exactEngine wallWorld = some FVector.ZeroVector ∧
    orphanBoid.IsObstacleAhead exactEngine wallWorld = some false :=
  ⟨rfl, rfl, null_flock_manager_is_noop exactEngine wallWorld orphanBoid 1
    [.boid 1 ⟨2, 0, 0⟩ ⟨1, 0, 0⟩] rfl⟩

/-! ## C9: the worked scenario -/

/-- C9: a boid with a valid flock manager, `MinSpeed = 1`, `MaxSpeed = 5`,
velocity `(1,0,0)`, `TargetForces = [(10,0,0)]`, no neighbours and no obstacle
ahead, stepped with `DeltaTime = 1` (square root exact at `121`): the
acceleration is `(10,0,0)`, the velocity before clamping is `(11,0,0)`, the
velocity stored by `Steer` is exactly `(5,0,0)` and `TargetForces` is empty. -/
theorem steer_worked_scenario {R : Type} [LinearOrderedField R] (E : Engine R) (W : World R)
    (b : ABoid R) (fm : AFlockManager R)
    (hfm : b.FlockManager = some fm) (hmin : fm.MinSpeed = 1) (hmax : fm.MaxSpeed = 5)
    (hv : b.BoidVelocity = ⟨1, 0, 0⟩) (hf : b.TargetForces = [⟨10, 0, 0⟩])
    (hn : W.PerceptionOverlaps (Steer.move E b 1).Location = [])
    (ho : (Steer.move E b 1).IsObstacleAhead E W = some false)
    (hsqrt : E.Sqrt 121 = 11) :
    Steer.accelerate E W (Steer.move E b 1) = some (⟨10, 0, 0⟩, []) ∧
    Steer.integrate (Steer.move E b 1) ⟨10, 0, 0⟩ 1 = ⟨11, 0, 0⟩ ∧
    ∃ b', b.Steer E W 1 = some b' ∧ b'.BoidVelocity = ⟨5, 0, 0⟩ ∧ b'.TargetForces = [] ∧
      b'.Location = b.Location + b.BoidVelocity.scale 1 := by
  have hflock : Steer.flockForces E W (Steer.move E b 1) = 0 := by
    have hm : (Steer.move E b 1).FlockManager = some fm := hfm
    simp only [Steer.flockForces, hn, ABoid.Separate, ABoid.Align, ABoid.GroupUp, hm,
      List.foldl_nil, gt_iff_lt, lt_self_iff_false, if_false, FVector.ZeroVector_eq]
    ext <;> simp
  have hforces : (Steer.move E b 1).TargetForces = [⟨10, 0, 0⟩] := hf
  have hacc : Steer.accelerate E W (Steer.move E b 1) = some (⟨10, 0, 0⟩, []) := by
    have h0 : (0 : FVector R) + ⟨10, 0, 0⟩ = ⟨10, 0, 0⟩ := FVector.zero_add_vec _
    simp [Steer.accelerate, Steer.avoid, ho, hflock, hforces, Steer.applyTargetForces,
      TArray.Remove, h0]
  have hint : Steer.integrate (Steer.move E b 1) ⟨10, 0, 0⟩ 1 = (⟨11, 0, 0⟩ : FVector R) := by
    have hmv : (Steer.move E b 1).BoidVelocity = ⟨1, 0, 0⟩ := hv
    simp only [Steer.integrate, hmv, FVector.scale]
    ext <;> simp
    norm_num
  have hclamp : (⟨11, 0, 0⟩ : FVector R).GetClampedToSize E 1 5 = ⟨5, 0, 0⟩ := by
    have hsz : (⟨11, 0, 0⟩ : FVector R).Size E = 11 := by
      simp only [FVector.Size, FVector.SizeSquared]
      rw [show ((11 : R) * 11 + 0 * 0 + 0 * 0) = 121 by norm_num]
      exact hsqrt
    have hsmall : (SMALL_NUMBER : R) < 11 := by
      unfold SMALL_NUMBER
      norm_num
    have hcl : Clamp (11 : R) 1 5 = 5 := by
      unfold Clamp
      norm_num
    simp only [FVector.GetClampedToSize, hsz, gt_iff_lt, hsmall, if_true, hcl, FVector.divide,
      FVector.scale]
    ext <;> norm_num
  refine ⟨hacc, hint, _, b.Steer_eq E W fm 1 hfm _ _ hacc, ?_, rfl, rfl⟩
  show (Steer.integrate (Steer.move E b 1) ⟨10, 0, 0⟩ 1).GetClampedToSize E fm.MinSpeed
    fm.MaxSpeed = ⟨5, 0, 0⟩
  rw [hint, hmin, hmax, hclamp]

/-- C9, witness: the scenario on the example boid in the empty world with the
concrete engine. -/
theorem steer_worked_scenario_witness :
    Steer.accelerate exactEngine emptyWorld
        (Steer.move exactEngine (exampleBoid.AddTargetForce ⟨10, 0, 0⟩) 1)
      = some (⟨10, 0, 0⟩, []) ∧
    Steer.integrate (Steer.move exactEngine (exampleBoid.AddTargetForce ⟨10, 0, 0⟩) 1)
      ⟨10, 0, 0⟩ 1 = ⟨11, 0, 0⟩ ∧
    ∃ b', (exampleBoid.AddTargetForce ⟨10, 0, 0⟩).Steer exactEngine emptyWorld 1 = some b' ∧
      b'.BoidVelocity = ⟨5, 0, 0⟩ ∧ b'.TargetForces = [] ∧
      b'.Location = (exampleBoid.AddTargetForce ⟨10, 0, 0⟩).Location
        + (exampleBoid.AddTargetForce ⟨10, 0, 0⟩).BoidVelocity.scale 1 :=
  steer_worked_scenario exactEngine emptyWorld (exampleBoid.AddTargetForce ⟨10, 0, 0⟩)
    exampleManager rfl rfl rfl rfl rfl rfl (by with_unfolding_all decide)
    (by with_unfolding_all decide)

/-! ## C10: sensor indexing -/

/-- C10: `Steer` returns normally for every boid, world and `DeltaTime` (no array
is indexed out of range); `IsObstacleAhead` always returns, and returns `true`
only for a flock manager with a non-empty sensor list, in which case
`AvoidObstacle` returns a force; with an empty sensor list `IsObstacleAhead` is
`false`, so although `AvoidObstacle` itself would index out of range there,
`Steer` does not call it and leaves the acceleration as it is. -/
theorem steer_sensor_index_in_bounds {R : Type} [LinearOrderedField R] (E : Engine R)
    (W : World R) (b : ABoid R) (DeltaTime : R) :
    (∃ b', b.Steer E W DeltaTime = some b') ∧
    (∃ r, b.IsObstacleAhead E W = some r) ∧
    (b.IsObstacleAhead E W = some true →
      (∃ fm, b.FlockManager = some fm ∧ fm.AvoidanceSensors ≠ []) ∧
      ∃ f, b.AvoidObstacle E W = some f) ∧
    (∀ fm, b.FlockManager = some fm → fm.AvoidanceSensors = [] →
      b.IsObstacleAhead E W = some false ∧ b.AvoidObstacle E W = none ∧
      ∀ acc, Steer.avoid E W b acc = some acc) := by
  refine ⟨?_, b.IsObstacleAhead_isSome E W, ?_, ?_⟩
  · cases hfm : b.FlockManager with
    | none => exact ⟨b, by simp [ABoid.Steer, hfm]⟩
    | some fm =>
      obtain ⟨⟨acc, rest⟩, hacc⟩ := Steer.accelerate_isSome E W (Steer.move E b DeltaTime)
      exact ⟨_, b.Steer_eq E W fm DeltaTime hfm acc rest hacc⟩
  · intro h
    obtain ⟨fm, hfm, hs⟩ := b.IsObstacleAhead_true E W h
    exact ⟨⟨fm, hfm, hs⟩, b.AvoidObstacle_isSome E W fm hfm hs⟩
  · intro fm hfm hs
    have h1 : b.IsObstacleAhead E W = some false := by
      simp [ABoid.IsObstacleAhead, hfm, hs]
    have h2 : b.AvoidObstacle E W = none := by
      simp [ABoid.AvoidObstacle, hfm, hs]
    refine ⟨h1, h2, ?_⟩
    intro acc
    simp [Steer.avoid, h1]

/-! ## C6, C7: the rules on included neighbours -/

/-- C6, the code at the failing input: the example boid (velocity `(1,0,0)`,
alignment strength `1`) with one neighbour ahead whose velocity is `(0,1,0)`.
`Align` returns the average `(0,1,0)` scaled by the strength; the specified
force `(normalize(A) - normalize(currentVelocity)) * alignmentStrength` is
`(-1,1,0)`. -/
theorem align_omits_current_velocity :
    exampleBoid.Align exactEngine [.boid 1 ⟨2, 0, 0⟩ ⟨0, 1, 0⟩] = ⟨0, 1, 0⟩ ∧
    Align.specified exactEngine exampleBoid.BoidVelocity exampleManager.AlignmentStrength
      [⟨0, 1, 0⟩] = ⟨-1, 1, 0⟩ ∧
    ¬ exampleBoid.rejects exactEngine exampleManager.AlignmentFOV
      (.boid 1 ⟨2, 0, 0⟩ ⟨0, 1, 0⟩) := by
  refine ⟨by with_unfolding_all decide, by with_unfolding_all decide, ?_⟩
  intro h
  rcases h with h | h
  · exact absurd h (by decide)
  · exact h (by with_unfolding_all decide)

set_option maxRecDepth 20000 in
/-- C7, the code at the failing input: the example boid (perception radius
`300`) with one neighbour straight ahead.  At distance `400` the specified
weight `1 - d / perceptionRadius` is negative, so the neighbour should be
skipped and the result be zero, but `Separate` includes it with weight
`299/300`; at distance `150` the specified weight is `1/2` but `Separate` again
uses `299/300`: the weight is computed from the length of the already
normalised direction. -/
theorem separate_weights_by_unit_length :
    exampleBoid.PerceptionRadius = 300 ∧
    (exampleBoid.Location - ⟨400, 0, 0⟩).Size exactEngine = 400 ∧
    Separate.specifiedProximity exactEngine exampleBoid.Location ⟨400, 0, 0⟩
      exampleBoid.PerceptionRadius = -1 / 3 ∧
    exampleBoid.Separate exactEngine [.boid 1 ⟨400, 0, 0⟩ ⟨1, 0, 0⟩] = ⟨-299 / 300, 0, 0⟩ ∧
    Separate.specifiedProximity exactEngine exampleBoid.Location ⟨150, 0, 0⟩
      exampleBoid.PerceptionRadius = 1 / 2 ∧
    exampleBoid.Separate exactEngine [.boid 1 ⟨150, 0, 0⟩ ⟨1, 0, 0⟩] = ⟨-299 / 300, 0, 0⟩ := by
  with_unfolding_all decide

end Boids
